import Mathlib

/-!
Shallow embedding of `src/src/rdx-run1-sample.cpp` (FF reweighting for
R(D(*)) run 1, step 1 ntuples).

Doubles are modelled as real numbers.  Four-momenta (`TLorentzVector`,
`Hammer::FourMomentum`) are records of four reals in the component order
(E, px, py, pz); three-vectors (`TVector3`) are records of three reals.
The external HAMMER evaluator (`Hammer::Hammer`) is modelled by two oracle
parameters: `procId` for `ham.addProcess` (the opaque process identifier,
zero meaning "no configured decay channel matched") and `wScheme` for
`ham.processEvent(); ham.getWeight("SemiTauonic")`.  Mutation of the C++
reference parameters is modelled by returning the final values of those
parameters; a C++ pass-by-value parameter enters only as an input.
-/

namespace HammerRedist

/-- Four-momentum `(E, px, py, pz)`: `TLorentzVector` and
`Hammer::FourMomentum`, component values in MeV. -/
structure Vec4 where
  e : ℝ
  px : ℝ
  py : ℝ
  pz : ℝ

/-- `TVector3`. -/
structure Vec3 where
  x : ℝ
  y : ℝ
  z : ℝ

/-- `TLorentzVector::operator+=` / `operator+`: componentwise sum. -/
def Vec4.add (a b : Vec4) : Vec4 :=
  ⟨a.e + b.e, a.px + b.px, a.py + b.py, a.pz + b.pz⟩

/-- `TLorentzVector::operator-`: componentwise difference. -/
def Vec4.sub (a b : Vec4) : Vec4 :=
  ⟨a.e - b.e, a.px - b.px, a.py - b.py, a.pz - b.pz⟩

/-- `TLorentzVector::M2()`: the invariant mass squared
`E*E - px*px - py*py - pz*pz`. -/
def Vec4.m2 (a : Vec4) : ℝ :=
  a.e * a.e - a.px * a.px - a.py * a.py - a.pz * a.pz

/-- `tot_mom.SetPxPyPzE(0, 0, 0, 0)`: the zero four-vector. -/
def Vec4.zero : Vec4 := ⟨0, 0, 0, 0⟩

/-- `TVector3::operator-` (unary). -/
def Vec3.neg (v : Vec3) : Vec3 := ⟨-v.x, -v.y, -v.z⟩

/-- Modelled from the spec: `TLorentzVector::Boost` belongs to the external
ROOT library, not to this repository.  The spec's §4.2 describes it as
boosting a four-momentum by a velocity three-vector; it is the standard
active Lorentz boost, `gamma = 1/sqrt(1 - |b|^2)`, applied to the local
copy.  (This is also exactly what ROOT implements.) -/
noncomputable def Vec4.boost (p : Vec4) (b : Vec3) : Vec4 :=
  let b2 := b.x * b.x + b.y * b.y + b.z * b.z
  let gamma := 1 / Real.sqrt (1 - b2)
  let bp := b.x * p.px + b.y * p.py + b.z * p.pz
  let gamma2 := if b2 > 0 then (gamma - 1) / b2 else 0
  ⟨gamma * (p.e + bp),
   p.px + gamma2 * bp * b.x + gamma * b.x * p.e,
   p.py + gamma2 * bp * b.y + gamma * b.y * p.e,
   p.pz + gamma2 * bp * b.z + gamma * b.z * p.e⟩

/-- `Hammer::Particle`: a four-momentum plus a PDG id. -/
structure HamParticle where
  mom : Vec4
  pid : ℤ

/-- `particle(pe, px, py, pz, pid)` of the source: packages a four-momentum
and a particle id into a `Hammer::Particle`. -/
def particle (pe p_x p_y p_z : ℝ) (pid : ℤ) : HamParticle :=
  ⟨⟨pe, p_x, p_y, p_z⟩, pid⟩

/-- `Hammer::Process` as the source uses it: the particles in the order
they were added (`addParticle` returns the index of the added particle)
and the vertices as (parent index, daughter indices). -/
structure Process where
  parts : List HamParticle
  verts : List (ℕ × List ℕ)

/-- `Hammer::Process proc;` — the empty process. -/
def Process.empty : Process := ⟨[], []⟩

/-- `proc.addParticle(p)`: appends the particle, returns the updated
process and the new particle's index. -/
def Process.addParticle (pr : Process) (p : HamParticle) : Process × ℕ :=
  (⟨pr.parts ++ [p], pr.verts⟩, pr.parts.length)

/-- `proc.addVertex(parent, {children})`. -/
def Process.addVertex (pr : Process) (parent : ℕ) (children : List ℕ) : Process :=
  ⟨pr.parts, pr.verts ++ [(parent, children)]⟩

/-- `add_ham_part_Tau` of the source: adds the eleven particles in the
source's order (B0, Dst, SlowPi, D0, K, Pi, Mu, Tau, Anti_Nu_Mu,
Anti_Nu_Tau, Nu_Tau) and the four vertices. -/
def add_ham_part_Tau (proc : Process)
    (B0 Dst D0 SlowPi K Pi Tau Anti_Nu_Tau Nu_Tau Mu Anti_Nu_Mu : HamParticle) :
    Process :=
  let s1 := proc.addParticle B0
  let s2 := s1.1.addParticle Dst
  let s3 := s2.1.addParticle SlowPi
  let s4 := s3.1.addParticle D0
  let s5 := s4.1.addParticle K
  let s6 := s5.1.addParticle Pi
  let s7 := s6.1.addParticle Mu
  let s8 := s7.1.addParticle Tau
  let s9 := s8.1.addParticle Anti_Nu_Mu
  let s10 := s9.1.addParticle Anti_Nu_Tau
  let s11 := s10.1.addParticle Nu_Tau
  let p1 := s11.1.addVertex s1.2 [s2.2, s8.2, s10.2]
  let p2 := p1.addVertex s8.2 [s7.2, s11.2, s9.2]
  let p3 := p2.addVertex s2.2 [s4.2, s3.2]
  let p4 := p3.addVertex s4.2 [s5.2, s6.2]
  p4

/-- `calc_mm2_with_nu({...})`: accumulates the given four-momenta onto the
zero four-vector, then returns `tot_mom.M2() / 1E6`. -/
noncomputable def calc_mm2_with_nu (momenta : List Vec4) : ℝ :=
  (momenta.foldl Vec4.add Vec4.zero).m2 / 1e6

/-- The final values of `calc_true_fit_vars`'s reference parameters
(`q2`, `el`, `b_lab_v`, `b_mom`, `dst_mom`); `mu_mom` is passed by value. -/
structure FitVars where
  q2 : ℝ
  el : ℝ
  b_lab_v : Vec3
  b_mom : Vec4
  dst_mom : Vec4

/-- `calc_true_fit_vars`: `q2 = (b_mom - dst_mom).M2() / 1E6`, then the
by-value copy of `mu_mom` is boosted by `-b_lab_v` and
`el = mu_mom.E() / 1E3`.  The outputs record the final values of every
reference parameter of the C++ function. -/
noncomputable def calc_true_fit_vars (b_lab_v : Vec3) (b_mom dst_mom mu_mom : Vec4) :
    FitVars :=
  let q2 := (b_mom.sub dst_mom).m2 / 1e6
  let mu_boosted := mu_mom.boost b_lab_v.neg
  ⟨q2, mu_boosted.e / 1e3, b_lab_v, b_mom, dst_mom⟩

/-- One input row of the `mc_dst_tau_aux` tree: the event/run numbers, and
for each of the eleven particles its id branch and its four true-momentum
branches (gathered into one `Vec4`, e.g. `b_mom.e` is `b_true_pe`). -/
structure Event where
  eventNumber : ℕ
  runNumber : ℕ
  b_id : ℤ
  b_mom : Vec4
  dst_id : ℤ
  dst_mom : Vec4
  d0_id : ℤ
  d0_mom : Vec4
  mu_id : ℤ
  mu_mom : Vec4
  k_id : ℤ
  k_mom : Vec4
  pi_id : ℤ
  pi_mom : Vec4
  spi_id : ℤ
  spi_mom : Vec4
  tau_id : ℤ
  tau_mom : Vec4
  anu_tau_id : ℤ
  anu_tau_mom : Vec4
  nu_tau_id : ℤ
  nu_tau_mom : Vec4
  anu_mu_id : ℤ
  anu_mu_mom : Vec4

/-- The wrong-sign fix of the loop body:
`if (*b_id * *dst_id > 0) b_id_fix = -*b_id; else b_id_fix = *b_id;`. -/
def b_id_fix (b_id dst_id : ℤ) : ℤ :=
  if b_id * dst_id > 0 then -b_id else b_id

/-- `b_lab_v` of the loop body: the B velocity in the lab frame,
`(px/pe, py/pe, pz/pe)` of the true B momentum.  There is no guard: the
divisions are performed for every event. -/
noncomputable def b_lab_v_of (e : Event) : Vec3 :=
  ⟨e.b_mom.px / e.b_mom.e, e.b_mom.py / e.b_mom.e, e.b_mom.pz / e.b_mom.e⟩

/-- The process the loop body submits to HAMMER: the eleven
`particle(...)` calls (the B0 with the fixed id, every other particle with
its recorded id) fed to `add_ham_part_Tau` on a fresh process. -/
def build_proc (e : Event) : Process :=
  let B0 := particle e.b_mom.e e.b_mom.px e.b_mom.py e.b_mom.pz
    (b_id_fix e.b_id e.dst_id)
  let Dst := particle e.dst_mom.e e.dst_mom.px e.dst_mom.py e.dst_mom.pz e.dst_id
  let SlowPi := particle e.spi_mom.e e.spi_mom.px e.spi_mom.py e.spi_mom.pz e.spi_id
  let D0 := particle e.d0_mom.e e.d0_mom.px e.d0_mom.py e.d0_mom.pz e.d0_id
  let K := particle e.k_mom.e e.k_mom.px e.k_mom.py e.k_mom.pz e.k_id
  let Pi := particle e.pi_mom.e e.pi_mom.px e.pi_mom.py e.pi_mom.pz e.pi_id
  let Mu := particle e.mu_mom.e e.mu_mom.px e.mu_mom.py e.mu_mom.pz e.mu_id
  let Tau := particle e.tau_mom.e e.tau_mom.px e.tau_mom.py e.tau_mom.pz e.tau_id
  let Anti_Nu_Mu := particle e.anu_mu_mom.e e.anu_mu_mom.px e.anu_mu_mom.py
    e.anu_mu_mom.pz e.anu_mu_id
  let Anti_Nu_Tau := particle e.anu_tau_mom.e e.anu_tau_mom.px e.anu_tau_mom.py
    e.anu_tau_mom.pz e.anu_tau_id
  let Nu_Tau := particle e.nu_tau_mom.e e.nu_tau_mom.px e.nu_tau_mom.py
    e.nu_tau_mom.pz e.nu_tau_id
  add_ham_part_Tau Process.empty B0 Dst D0 SlowPi K Pi Tau Anti_Nu_Tau Nu_Tau
    Mu Anti_Nu_Mu

/-- One output row of the `mc_dst_tau_ff_w` tree:
`eventNumber, runNumber, w_ff, q2_true, mm2_true, el_true`. -/
structure Row where
  eventNumber : ℕ
  runNumber : ℕ
  w_ff : ℝ
  q2_true : ℝ
  mm2_true : ℝ
  el_true : ℝ

/-- One "Problematic weight" diagnostic line: the weight and the event
number it printed. -/
structure Diag where
  w : ℝ
  eventNumber : ℕ

/-- The output row the loop body fills for an event: the event/run
numbers, the retrieved weight, and the derived `q2`, `mm2`, `el`. -/
noncomputable def out_row (wScheme : Process → ℝ) (e : Event) : Row :=
  let fv := calc_true_fit_vars (b_lab_v_of e) e.b_mom e.dst_mom e.mu_mom
  let mm2 := calc_mm2_with_nu [e.nu_tau_mom, e.anu_tau_mom, e.anu_mu_mom]
  ⟨e.eventNumber, e.runNumber, wScheme (build_proc e), fv.q2, mm2, fv.el⟩

/-- One iteration of the `while (reader.Next())` loop, from
`ham.initEvent()` on: the process is submitted; only when `proc_id != 0`
is the event evaluated, the weight compared against 10 (printing the
diagnostic when it exceeds 10) and the row filled; a zero id falls
through silently. -/
noncomputable def reweight_step (procId : Process → ℕ) (wScheme : Process → ℝ)
    (e : Event) : List Row × List Diag :=
  let proc := build_proc e
  if procId proc ≠ 0 then
    let w_ff := wScheme proc
    ([out_row wScheme e], if w_ff > 10 then [⟨w_ff, e.eventNumber⟩] else [])
  else ([], [])

/-- The whole `reweight` loop over a finite input sequence: the rows the
output tree accumulates (in `Fill` order) and the diagnostics printed. -/
noncomputable def reweight (procId : Process → ℕ) (wScheme : Process → ℝ) :
    List Event → List Row × List Diag
  | [] => ([], [])
  | e :: es =>
    ((reweight_step procId wScheme e).1 ++ (reweight procId wScheme es).1,
     (reweight_step procId wScheme e).2 ++ (reweight procId wScheme es).2)

/-- The spec's description of `momentum_transfer_squared`: the invariant
mass-squared of the four-momentum difference parent − resonance, divided
by 1e6, computed componentwise in the lab frame. -/
noncomputable def q2_spec (parent res : Vec4) : ℝ :=
  ((parent.e - res.e) * (parent.e - res.e)
    - (parent.px - res.px) * (parent.px - res.px)
    - (parent.py - res.py) * (parent.py - res.py)
    - (parent.pz - res.pz) * (parent.pz - res.pz)) / 1e6

/-- A concrete event record with every id and every momentum component
zero (in particular `b_true_pe = 0`). -/
def evZero : Event :=
  ⟨0, 0, 0, Vec4.zero, 0, Vec4.zero, 0, Vec4.zero, 0, Vec4.zero, 0, Vec4.zero,
   0, Vec4.zero, 0, Vec4.zero, 0, Vec4.zero, 0, Vec4.zero, 0, Vec4.zero,
   0, Vec4.zero⟩

/-- Claim C4: for every pair of parent and resonance four-momenta (and
any boost velocity and lepton momentum), the `q2` computed by
`calc_true_fit_vars` is the invariant mass-squared of the four-momentum
difference parent − resonance divided by 1e6, computed componentwise in
the lab frame with no boost applied. -/
theorem q2_matches_invariant_mass_difference (v : Vec3) (b dst mu : Vec4) :
    (calc_true_fit_vars v b dst mu).q2 = q2_spec b dst := by
  simp [calc_true_fit_vars, q2_spec, Vec4.sub, Vec4.m2]

/-- Claim C9: applied to the empty collection of four-momenta,
`calc_mm2_with_nu` returns 0: the fold starts from the zero four-vector,
whose invariant mass-squared is 0. -/
theorem mm2_empty_zero : calc_mm2_with_nu [] = 0 := by
  simp [calc_mm2_with_nu, Vec4.zero, Vec4.m2]

/-- Claim C10: when the parent's type code or the resonance's type code
is 0, their product is not positive, so the sign-correction rule leaves
the parent's code unchanged, and the parent particle handed to the
evaluator carries the recorded code. -/
theorem zero_id_code_unchanged (e : Event) (h : e.b_id = 0 ∨ e.dst_id = 0) :
    ¬ e.b_id * e.dst_id > 0 ∧
    b_id_fix e.b_id e.dst_id = e.b_id ∧
    ((build_proc e).parts.map HamParticle.pid).head? = some e.b_id := by
  have hz : e.b_id * e.dst_id = 0 := by rcases h with h | h <;> simp [h]
  refine ⟨by simp [hz], by simp [b_id_fix, hz], ?_⟩
  simp [build_proc, add_ham_part_Tau, Process.addParticle, Process.addVertex,
    Process.empty, particle, b_id_fix, hz]

/-- Claim C10, witness: the rule applied at the concrete event whose codes
are all zero. -/
theorem zero_id_code_unchanged_witness :
    ¬ evZero.b_id * evZero.dst_id > 0 ∧
    b_id_fix evZero.b_id evZero.dst_id = evZero.b_id ∧
    ((build_proc evZero).parts.map HamParticle.pid).head? = some evZero.b_id :=
  zero_id_code_unchanged evZero (Or.inl rfl)

/-- Claim C1: the parent's particle-type code is negated before tree
construction if and only if the parent code and the resonance code have
the same sign (their product is positive); every other particle of the
submitted process, and a parent whose code has the opposite sign to the
resonance's, carries the recorded code unchanged. -/
theorem b_id_sign_correction (e : Event) :
    (build_proc e).parts.map HamParticle.pid =
      [b_id_fix e.b_id e.dst_id, e.dst_id, e.spi_id, e.d0_id, e.k_id, e.pi_id,
       e.mu_id, e.tau_id, e.anu_mu_id, e.anu_tau_id, e.nu_tau_id] ∧
    (b_id_fix e.b_id e.dst_id =
      if e.b_id * e.dst_id > 0 then -e.b_id else e.b_id) ∧
    (e.b_id * e.dst_id > 0 ↔
      0 < e.b_id ∧ 0 < e.dst_id ∨ e.b_id < 0 ∧ e.dst_id < 0) := by
  refine ⟨?_, rfl, mul_pos_iff⟩
  simp [build_proc, add_ham_part_Tau, Process.addParticle, Process.addVertex,
    Process.empty, particle]

/-- Claim C8: `calc_true_fit_vars` leaves the parent's four-momentum (and
the resonance momentum and the velocity, all passed by reference)
unchanged, and the boost enters only through the energy of the local
by-value copy of the lepton momentum. -/
theorem calc_true_fit_vars_preserves_refs (v : Vec3) (b dst mu : Vec4) :
    (calc_true_fit_vars v b dst mu).b_mom = b ∧
    (calc_true_fit_vars v b dst mu).dst_mom = dst ∧
    (calc_true_fit_vars v b dst mu).b_lab_v = v ∧
    (calc_true_fit_vars v b dst mu).el = (mu.boost v.neg).e / 1e3 :=
  ⟨rfl, rfl, rfl, rfl⟩

/-- The accumulating loop of `calc_mm2_with_nu`, componentwise: folding
`Vec4.add` over a list adds the componentwise sums to the start value. -/
theorem foldl_add_components (z : Vec4) (l : List Vec4) :
    l.foldl Vec4.add z =
      ⟨z.e + (l.map Vec4.e).sum, z.px + (l.map Vec4.px).sum,
       z.py + (l.map Vec4.py).sum, z.pz + (l.map Vec4.pz).sum⟩ := by
  induction l generalizing z with
  | nil => simp
  | cons a t ih =>
    rw [List.foldl_cons, ih]
    simp only [List.map_cons, List.sum_cons, Vec4.add, Vec4.mk.injEq]
    refine ⟨by ring, by ring, by ring, by ring⟩

/-- Claim C5: the result of `calc_mm2_with_nu` (the summed system's
invariant mass-squared divided by 1e6) is the same for every permutation
of the order in which the four-momenta are supplied. -/
theorem mm2_perm_invariant (l1 l2 : List Vec4) (h : l1.Perm l2) :
    calc_mm2_with_nu l1 = calc_mm2_with_nu l2 := by
  simp [calc_mm2_with_nu, foldl_add_components, Vec4.m2,
    (h.map Vec4.e).sum_eq, (h.map Vec4.px).sum_eq,
    (h.map Vec4.py).sum_eq, (h.map Vec4.pz).sum_eq]

/-- A concrete four-momentum. -/
def vA : Vec4 := ⟨1, 0, 0, 0⟩

/-- Another concrete four-momentum. -/
def vB : Vec4 := ⟨2, 1, 0, 0⟩

/-- Claim C5, witness: the two orders of a concrete two-element
collection give the same mass-squared. -/
theorem mm2_perm_invariant_witness :
    calc_mm2_with_nu [vB, vA] = calc_mm2_with_nu [vA, vB] :=
  mm2_perm_invariant [vB, vA] [vA, vB] (List.Perm.swap vA vB [])

/-- Rows of a full `reweight` run: exactly the events whose submission
returned a nonzero identifier, in input order, each contributing its
output row. -/
theorem reweight_rows_eq (procId : Process → ℕ) (wScheme : Process → ℝ)
    (events : List Event) :
    (reweight procId wScheme events).1 =
      (events.filter fun e => procId (build_proc e) ≠ 0).map (out_row wScheme) := by
  induction events with
  | nil => simp [reweight]
  | cons e es ih =>
    by_cases h : procId (build_proc e) ≠ 0
    · simp [reweight, reweight_step, h, ih]
    · simp [reweight, reweight_step, h, ih]

/-- Diagnostics of a full `reweight` run: exactly the evaluated events
whose weight exceeds 10, in input order. -/
theorem reweight_diags_eq (procId : Process → ℕ) (wScheme : Process → ℝ)
    (events : List Event) :
    (reweight procId wScheme events).2 =
      ((events.filter fun e => procId (build_proc e) ≠ 0).filter
        fun e => wScheme (build_proc e) > 10).map
        fun e => ⟨wScheme (build_proc e), e.eventNumber⟩ := by
  induction events with
  | nil => simp [reweight]
  | cons e es ih =>
    by_cases h : procId (build_proc e) ≠ 0
    · by_cases hw : wScheme (build_proc e) > 10
      · simp [reweight, reweight_step, h, hw, ih]
      · simp [reweight, reweight_step, h, hw, ih]
    · simp [reweight, reweight_step, h, ih]

/-- Claim C3: the output table holds exactly one row for each event whose
process submission returned a nonzero identifier and no row for any event
whose submission returned zero, in the input's relative order; a zero
identifier only skips the event (the run function is total and continues
over the remaining events). -/
theorem reweight_rows_are_filtered_in_order (procId : Process → ℕ)
    (wScheme : Process → ℝ) (events : List Event) :
    (reweight procId wScheme events).1 =
      (events.filter fun e => procId (build_proc e) ≠ 0).map (out_row wScheme) :=
  reweight_rows_eq procId wScheme events

/-- Claim C6: a diagnostic is emitted exactly for the evaluated events
whose retrieved weight strictly exceeds 10; every evaluated event's row is
still written, and the weight recorded in the row is the retrieved weight
unmodified. -/
theorem anomalous_weight_diag_and_row (procId : Process → ℕ)
    (wScheme : Process → ℝ) (events : List Event) :
    (reweight procId wScheme events).2 =
      ((events.filter fun e => procId (build_proc e) ≠ 0).filter
        fun e => wScheme (build_proc e) > 10).map
        (fun e => ⟨wScheme (build_proc e), e.eventNumber⟩) ∧
    (reweight procId wScheme events).1 =
      (events.filter fun e => procId (build_proc e) ≠ 0).map (out_row wScheme) ∧
    ∀ e : Event, (out_row wScheme e).w_ff = wScheme (build_proc e) :=
  ⟨reweight_diags_eq procId wScheme events,
   reweight_rows_eq procId wScheme events,
   fun _ => rfl⟩

/-- Claim C7: with a zero boost velocity the boost leaves the lepton
four-momentum unchanged, so `calc_true_fit_vars` returns the lepton's
lab-frame energy divided by 1e3. -/
theorem el_zero_boost_identity (v : Vec3) (b dst mu : Vec4)
    (hv : v = ⟨0, 0, 0⟩) :
    (calc_true_fit_vars v b dst mu).el = mu.e / 1e3 := by
  subst hv
  simp [calc_true_fit_vars, Vec4.boost, Vec3.neg, Real.sqrt_one]

/-- Claim C7, witness: the zero-velocity boost at a concrete lepton
momentum. -/
theorem el_zero_boost_identity_witness :
    (calc_true_fit_vars ⟨0, 0, 0⟩ vA vB vA).el = vA.e / 1e3 :=
  el_zero_boost_identity ⟨0, 0, 0⟩ vA vB vA rfl

/-- Claim C2 fails on the code: the loop body has no guard on the parent
energy, so an event with `b_true_pe = 0` reaches the velocity divisions
and — when its submission returns a nonzero identifier — still produces
an output row instead of being rejected. -/
theorem zero_energy_event_not_rejected :
    evZero.b_mom.e = 0 ∧
    (reweight (fun _ => 1) (fun _ => 1) [evZero]).1.length = 1 := by
  refine ⟨rfl, ?_⟩
  simp [reweight, reweight_step]

end HammerRedist
